import Mathlib

/-!
Verification of the inventory-manager program `app.py` (single-table product
inventory with CSV import/export, a price/date codec, and an interactive menu).

The program is shallowly embedded: the SQLite table becomes an explicit list of
rows threaded through the operations, Python exceptions become `Except`/`Option`
results, and Python's builtin string/int conversions are modelled by executable
Lean functions on `List Char`.
-/

/-! ## Model of Python's decimal strings and `int()` -/

/-- ASCII decimal digit test (`'0'..'9'`), as used by `int()` on ASCII input. -/
def isDigitChar (c : Char) : Bool :=
  decide (48 ≤ c.toNat) && decide (c.toNat ≤ 57)

/-- ASCII whitespace stripped by Python's `int(str)` before parsing. -/
def isPySpace (c : Char) : Bool :=
  decide (c.toNat = 32) || decide (c.toNat = 9) || decide (c.toNat = 10) ||
  decide (c.toNat = 13) || decide (c.toNat = 11) || decide (c.toNat = 12)

/-- Fuel-driven worker for `natDigits`; the fuel only forces structural
recursion (so that the kernel can evaluate it) and is never exhausted when
called with fuel greater than `n`. -/
def natDigitsAux : Nat → Nat → List Char
  | 0, _ => []
  | f + 1, n =>
    if n < 10 then [Char.ofNat (48 + n)]
    else natDigitsAux f (n / 10) ++ [Char.ofNat (48 + n % 10)]

/-- Decimal digits of `n`, most significant first: the model of Python `str(n)`
for a nonnegative integer. -/
def natDigits (n : Nat) : List Char :=
  natDigitsAux (n + 1) n

/-- Model of Python `str(i)` for an `int`, as a character list. -/
def pyStrInt (i : Int) : List Char :=
  if i < 0 then '-' :: natDigits i.natAbs else natDigits i.toNat

/-- Numeric value of a digit string (most significant digit first). -/
def digitsVal (l : List Char) : Nat :=
  l.foldl (fun a c => a * 10 + (c.toNat - 48)) 0

/-- Parse a nonempty all-digit character list to its value; `none` otherwise.
(Underscore digit grouping, legal in Python 3 `int()`, is not modelled; no
input in this program uses it.) -/
def parseUnsigned (l : List Char) : Option Nat :=
  if l.isEmpty then none
  else if l.all isDigitChar then some (digitsVal l) else none

/-- Whitespace stripping done by Python `int(str)` at both ends. -/
def pyStripWs (l : List Char) : List Char :=
  ((l.dropWhile isPySpace).reverse.dropWhile isPySpace).reverse

/-- Model of Python `int(str)`: strip whitespace, optional single sign, then a
nonempty run of digits; `none` models the `ValueError` raise. -/
def pyIntChars (l : List Char) : Option Int :=
  match pyStripWs l with
  | [] => none
  | c :: rest =>
    if c = '-' then (parseUnsigned rest).map (fun n => -(Int.ofNat n))
    else if c = '+' then (parseUnsigned rest).map (fun n => Int.ofNat n)
    else (parseUnsigned (c :: rest)).map (fun n => Int.ofNat n)

/-! ## Price codec (`format_price_str_to_int`, `format_price_int_to_str`) -/

/-- `re.sub('[\$\.]', '', s)`: drop every `$` and `.` character. -/
def stripDollarDot (l : List Char) : List Char :=
  l.filter (fun c => !(c == '$' || c == '.'))

/-- `re.sub('[\$]', '', s)`: drop every `$` character. -/
def stripDollar (l : List Char) : List Char :=
  l.filter (fun c => !(c == '$'))

/-- `format_price_str_to_int` from app.py: if the string contains a `.`, strip
`$` and `.` and read the digits directly as cents; otherwise strip `$` and read
the digits as whole dollars, multiplying by 100. `none` models the uncaught
`ValueError` from `int()`. -/
def format_price_str_to_int (pricestr : String) : Option Int :=
  if pricestr.data.contains '.' then pyIntChars (stripDollarDot pricestr.data)
  else (pyIntChars (stripDollar pricestr.data)).map (fun i => i * 100)

/-- Core of `format_price_int_to_str`, operating on the `str(price)` characters:
1 digit gives `$0.0D`, 2 digits `$0.DD`, otherwise the last two characters
become the fractional part. -/
def format_price_chars (pricestr : List Char) : String :=
  if pricestr.length = 1 then String.mk ('$' :: '0' :: '.' :: '0' :: pricestr)
  else if pricestr.length = 2 then String.mk ('$' :: '0' :: '.' :: pricestr)
  else String.mk ('$' :: (pricestr.take (pricestr.length - 2) ++
    '.' :: pricestr.drop (pricestr.length - 2)))

/-- `format_price_int_to_str` from app.py. -/
def format_price_int_to_str (price : Int) : String :=
  format_price_chars (pyStrInt price)

example : format_price_str_to_int "$12.50" = some 1250 := by decide
example : format_price_str_to_int "$12.5" = some 125 := by decide
example : format_price_str_to_int "$7" = some 700 := by decide
example : format_price_str_to_int "a5" = none := by decide
example : format_price_str_to_int "-5.00" = some (-500) := by decide
example : format_price_int_to_str 5 = "$0.05" := by decide
example : format_price_int_to_str 150 = "$1.50" := by decide
example : format_price_str_to_int (format_price_int_to_str 99999) = some 99999 := by decide

/-! ## Model of Python `datetime` and the date codec -/

/-- The Python exceptions this program can raise or catch. -/
inductive PyExc where
  | valueError
  | integrityError
  | doesNotExist
deriving DecidableEq

/-- Outcome of running a piece of Python code: a value, or an uncaught
exception propagating. -/
inductive PyResult (α : Type) where
  | ok (val : α)
  | raised (exc : PyExc)
deriving DecidableEq

/-- Exception propagation: run `f` on the value unless an exception is already
propagating. -/
def PyResult.bind {α β : Type} (r : PyResult α) (f : α → PyResult β) : PyResult β :=
  match r with
  | .ok v => f v
  | .raised e => .raised e

/-- Model of a `datetime.datetime` value (microseconds are irrelevant to the
program and omitted). -/
structure Datetime where
  year : Nat
  month : Nat
  day : Nat
  hour : Nat
  minute : Nat
  second : Nat
deriving DecidableEq

/-- `datetime` comparison: lexicographic on the components. -/
def dtLt (a b : Datetime) : Bool :=
  if a.year ≠ b.year then decide (a.year < b.year)
  else if a.month ≠ b.month then decide (a.month < b.month)
  else if a.day ≠ b.day then decide (a.day < b.day)
  else if a.hour ≠ b.hour then decide (a.hour < b.hour)
  else if a.minute ≠ b.minute then decide (a.minute < b.minute)
  else decide (a.second < b.second)

/-- Day count of a month, with the Gregorian leap rule (as validated by the
`datetime` constructor inside `strptime`). -/
def daysInMonth (y m : Nat) : Nat :=
  if m = 2 then
    (if (y % 4 = 0 ∧ y % 100 ≠ 0) ∨ y % 400 = 0 then 29 else 28)
  else if m = 4 ∨ m = 6 ∨ m = 9 ∨ m = 11 then 30 else 31

/-- Split a character list on `'/'` separators, keeping empty groups, as
`'3/4/2021'` splits into the three directive fields of `'%m/%d/%Y'`. -/
def splitOnSlash : List Char → List (List Char)
  | [] => [[]]
  | c :: t =>
    match splitOnSlash t with
    | [] => [[]]
    | g :: gs => if c = '/' then [] :: g :: gs else (c :: g) :: gs

/-- A run of 1 to `maxLen` ASCII digits, as matched by a `strptime` numeric
directive, with its value. -/
def parseDigitGroup (maxLen : Nat) (l : List Char) : Option Nat :=
  if l.isEmpty then none
  else if decide (l.length ≤ maxLen) && l.all isDigitChar then
    some (digitsVal l)
  else none

/-- `format_date_str_to_datetime` from app.py: `strptime(datestr, '%m/%d/%Y')`
when a string is given (`%m`/`%d` take 1-2 digits, `%Y` up to 4; the resulting
month/day must form a valid calendar date, as `datetime` checks; time fields
default to 0), `datetime.now()` — the call-time clock, passed in as `now` —
when no string is given. `.raised` models the `ValueError` raise. -/
def format_date_str_to_datetime (datestr : Option String) (now : Datetime) :
    PyResult Datetime :=
  match datestr with
  | none => .ok now
  | some s =>
    match splitOnSlash s.data with
    | [ms, ds, ys] =>
      match parseDigitGroup 2 ms, parseDigitGroup 2 ds, parseDigitGroup 4 ys with
      | some m, some d, some y =>
        if 1 ≤ y ∧ 1 ≤ m ∧ m ≤ 12 ∧ 1 ≤ d ∧ d ≤ daysInMonth y m then
          .ok ⟨y, m, d, 0, 0, 0⟩
        else .raised .valueError
      | _, _, _ => .raised .valueError
    | _ => .raised .valueError

/-- Two-digit zero-padded field, as produced by `strftime` `%m`/`%d`. -/
def pad2 (n : Nat) : String :=
  if n < 10 then String.mk ('0' :: natDigits n) else String.mk (natDigits n)

/-- Four-digit zero-padded year, as produced by `strftime` `%Y`. -/
def pad4 (n : Nat) : String :=
  if n < 10 then String.mk ('0' :: '0' :: '0' :: natDigits n)
  else if n < 100 then String.mk ('0' :: '0' :: natDigits n)
  else if n < 1000 then String.mk ('0' :: natDigits n)
  else String.mk (natDigits n)

/-- `format_date_datetime_to_str` from app.py applied to an explicit argument:
`strftime(dt, '%m/%d/%Y')`, zero-padded month and day. -/
def format_date_datetime_to_str (dt : Datetime) : String :=
  pad2 dt.month ++ "/" ++ pad2 dt.day ++ "/" ++ pad4 dt.year

/-- The default argument of `format_date_datetime_to_str` is `datetime.now()`
evaluated once, when the `def` statement runs at module load; this definition
names that captured value. -/
def moduleLoadDefault (startupNow : Datetime) : Datetime := startupNow

/-- A call `format_date_datetime_to_str()` with the argument omitted, made when
the clock reads `callTimeNow` in a program run that loaded when the clock read
`startupNow`: the default argument object is the one captured at load. -/
def format_date_datetime_to_str_noarg (startupNow callTimeNow : Datetime) : String :=
  format_date_datetime_to_str (moduleLoadDefault startupNow)

example : format_date_str_to_datetime (some "3/4/2021") ⟨2025, 1, 1, 0, 0, 0⟩ =
    .ok ⟨2021, 3, 4, 0, 0, 0⟩ := by decide
example : format_date_datetime_to_str ⟨2021, 3, 4, 0, 0, 0⟩ = "03/04/2021" := by decide
example : format_date_str_to_datetime (some "2/30/2021") ⟨2025, 1, 1, 0, 0, 0⟩ =
    .raised .valueError := by decide

/-! ## The `Product` table and the repository operations -/

/-- A Python value sitting in a stored field: the integers the program normally
stores, or the 1-tuple produced by the trailing-comma assignments
`product_record.product_quantity = record['product_quantity'],` in the
`IntegrityError` branch of `add_record_to_db`. -/
inductive PyVal where
  | int (i : Int)
  | tuple1 (i : Int)
deriving DecidableEq

/-- A row of the `product` table (the `Product` peewee model). -/
structure Product where
  product_id : Nat
  product_name : String
  product_quantity : PyVal
  product_price : PyVal
  date_updated : Datetime
deriving DecidableEq

/-- The SQLite table plus its `AutoField` id counter (ids start at 1; the
program never deletes, so the counter is `max id + 1`). -/
structure DB where
  rows : List Product
  nextId : Nat
deriving DecidableEq

def DB.empty : DB := ⟨[], 1⟩

/-- Schema fact: `product_name = CharField()` (src/app.py line 15) declares no
`unique=True`, so the database holds no uniqueness constraint on the name. -/
def product_name_is_unique : Bool := false

/-- The dict built by `get_product_details_from_user` / `load_data_from_csv`
and passed to `add_record_to_db`: by then quantity and price are plain ints
(the CSV loader's quantity string is adapted through `int()` by peewee's
`IntegerField` on storage) and the date is a `datetime`. -/
structure InputRecord where
  product_name : String
  product_quantity : Int
  product_price : Int
  date_updated : Datetime

/-- `Product.create(...)`: raises `IntegrityError` exactly when a constraint is
violated; with this schema (no unique name, all fields supplied) that never
happens, and a fresh row with the next auto id is appended. -/
def Product.create (record : InputRecord) (db : DB) : PyResult DB :=
  if product_name_is_unique &&
      db.rows.any (fun r => decide (r.product_name = record.product_name)) then
    .raised .integrityError
  else
    .ok ⟨db.rows ++ [⟨db.nextId, record.product_name, .int record.product_quantity,
      .int record.product_price, record.date_updated⟩], db.nextId + 1⟩

/-- `Product.get(product_name=...)`: first row with the given name, or the
`DoesNotExist` raise. -/
def Product.get_by_name (db : DB) (name : String) : Option Product :=
  db.rows.find? (fun r => decide (r.product_name = name))

/-- `Product.get(Product.product_id == id)`. -/
def Product.get_by_id (db : DB) (i : Int) : Option Product :=
  db.rows.find? (fun r => decide ((r.product_id : Int) = i))

/-- `product_record.save()`: write the modified row back over the row with the
same id. -/
def Product.save (db : DB) (modified : Product) : DB :=
  ⟨db.rows.map (fun r => if r.product_id = modified.product_id then modified else r),
    db.nextId⟩

/-- `add_record_to_db` from app.py: try `Product.create`; on `IntegrityError`
fetch the row by name, overwrite quantity and price — each with a trailing
comma in the source, so each becomes a 1-tuple — overwrite the date only if
the incoming one is strictly later, and save. (A `DoesNotExist` from the
`Product.get` would propagate, and the saved tuple values would make the
SQL driver raise; both are unreachable, since with this schema
`Product.create` never raises.) -/
def add_record_to_db (record : InputRecord) (db : DB) : PyResult DB :=
  match Product.create record db with
  | .ok db' => .ok db'
  | .raised .integrityError =>
    match Product.get_by_name db record.product_name with
    | none => .raised .doesNotExist
    | some product_record =>
      let product_record := { product_record with
        product_quantity := .tuple1 record.product_quantity,
        product_price := .tuple1 record.product_price }
      let product_record :=
        if dtLt product_record.date_updated record.date_updated then
          { product_record with date_updated := record.date_updated }
        else product_record
      .ok (Product.save db product_record)
  | .raised e => .raised e

/-! ## CSV import (`load_data_from_csv`) -/

/-- One row of `inventory.csv` as `csv.DictReader` yields it: every field a
string. -/
structure CsvRow where
  product_name : String
  product_price : String
  product_quantity : String
  date_updated : String

/-- The notice printed when the seed file is missing. -/
def csvMissingNotice : String :=
  "inventory.csv file not found, no current data loaded to database"

/-- The per-row loop of `load_data_from_csv`: convert price and date through
the codec (an uncaught `ValueError` aborts the whole import), adapt the
quantity string through `int()` (peewee `IntegerField`), and upsert. -/
def loadRows (now : Datetime) : List CsvRow → DB → PyResult DB
  | [], db => .ok db
  | r :: rest, db =>
    match format_price_str_to_int r.product_price with
    | none => .raised .valueError
    | some price =>
      (format_date_str_to_datetime (some r.date_updated) now).bind fun date =>
      match pyIntChars r.product_quantity.data with
      | none => .raised .valueError
      | some q =>
        (add_record_to_db ⟨r.product_name, q, price, date⟩ db).bind (loadRows now rest)

/-- `load_data_from_csv` from app.py: `csvfile = none` models the absent file
(`FileNotFoundError` caught: print the notice, leave the table untouched);
otherwise run the row loop. Returns the resulting table and the printed
lines. -/
def load_data_from_csv (now : Datetime) (csvfile : Option (List CsvRow)) (db : DB) :
    PyResult (DB × List String) :=
  match csvfile with
  | none => .ok (db, [csvMissingNotice])
  | some rows => (loadRows now rows db).bind fun db' => .ok (db', [])

/-! ## Interactive session pieces -/

/-- `re.search('\$?\.?\d+', s)`: with both `\$?` and `\.?` optional, some
substring matches exactly when the string contains at least one ASCII digit. -/
def priceInputSearch (s : String) : Bool :=
  s.data.any isDigitChar

/-- Outcome of the `get_price_from_user` retry loop on a given queue of input
lines: a price accepted (and returned), an uncaught raise, or the queue
exhausted with the loop still prompting. -/
inductive PriceOutcome where
  | accepted (price : Int)
  | raisedValueError
  | stillPrompting
deriving DecidableEq

/-- `get_price_from_user` from app.py, run against the queue of lines the user
types: each line is checked with `re.search('\$?\.?\d+', ...)`; a line that
fails the search prints the retry message and loops; a line that passes is fed
to `format_price_str_to_int`, whose `int()` raise — not caught anywhere —
escapes the loop. -/
def get_price_from_user : List String → PriceOutcome
  | [] => .stillPrompting
  | line :: rest =>
    if priceInputSearch line then
      match format_price_str_to_int line with
      | some price => .accepted price
      | none => .raisedValueError
    else get_price_from_user rest

/-- What the session writes to the terminal: printed lines, and the blocking
`input('Press any key to continue ')` keypress wait. -/
inductive OutEvent where
  | print (s : String)
  | waitKey
deriving DecidableEq

def natStr (n : Nat) : String := String.mk (natDigits n)

def pyStr (i : Int) : String := String.mk (pyStrInt i)

/-- Python `str` of a stored field value (`str((i,))` renders as `(i,)`). -/
def pyValStr (v : PyVal) : String :=
  match v with
  | .int i => pyStr i
  | .tuple1 i => "(" ++ pyStr i ++ ",)"

/-- `format_price_int_to_str` as `display_product` applies it to the stored
field value: `str(...)` of the value, then the length-cased reformatting. -/
def format_price_val_to_str (v : PyVal) : String :=
  format_price_chars (pyValStr v).data

/-- `display_product` from app.py: the four prints, then the keypress wait. -/
def display_product (product : Product) : List OutEvent :=
  [.print ("Product " ++ natStr product.product_id ++ ":  " ++ product.product_name),
   .print ("Price: " ++ format_price_val_to_str product.product_price),
   .print ("Quantity in stock: " ++ pyValStr product.product_quantity),
   .print ("Date Last Updated: " ++ format_date_datetime_to_str product.date_updated),
   .waitKey]

/-- The not-found message of `view_product_by_id`. -/
def idNotFoundMsg : String := "Sorry, product with this ID not found"

/-- The `try` block of `view_product_by_id` once an integer id has been read:
`Product.get` (raising `DoesNotExist` when no row matches) then
`display_product`. -/
def view_try_block (db : DB) (i : Int) : PyResult (List OutEvent) :=
  match Product.get_by_id db i with
  | some product => .ok (display_product product)
  | none => .raised .doesNotExist

/-- `view_product_by_id` from app.py after the id prompt: the `try` block with
its bare `except` turning any raise into the not-found print (and no keypress
wait). -/
def view_product_by_id (db : DB) (i : Int) : List OutEvent :=
  match view_try_block db i with
  | .ok events => events
  | .raised _ => [.print idNotFoundMsg]

/-! ## Sample values used by the concrete theorems -/

def dtMar1 : Datetime := ⟨2021, 3, 1, 0, 0, 0⟩

def dtMar4 : Datetime := ⟨2021, 3, 4, 0, 0, 0⟩

def dtMar5 : Datetime := ⟨2021, 3, 5, 0, 0, 0⟩

def widgetRow : Product := ⟨1, "Widget", .int 10, .int 500, dtMar4⟩

def widgetDb : DB := ⟨[widgetRow], 2⟩

def sampleCsv : List CsvRow :=
  [⟨"Widget", "$5.00", "10", "3/4/2021"⟩, ⟨"Widget", "$6.00", "20", "3/5/2021"⟩]

/-- Row test of the stored-price invariant claimed by the spec: the price field
holds a non-negative integer. -/
def priceOkRow (r : Product) : Bool :=
  match r.product_price with
  | .int i => decide (0 ≤ i)
  | .tuple1 _ => false

/-- Table-wide stored-price invariant claimed by the spec. -/
def priceInvariant (db : DB) : Bool :=
  db.rows.all priceOkRow

/-! ## Supporting lemmas -/

lemma digit_char_spec (m : Nat) (h : m < 10) :
    isDigitChar (Char.ofNat (48 + m)) = true ∧ (Char.ofNat (48 + m)).toNat = 48 + m := by
  interval_cases m <;> exact ⟨by decide, by decide⟩

lemma natDigitsAux_stable : ∀ n f, n < f → natDigitsAux f n = natDigits n := by
  intro n
  induction n using Nat.strong_induction_on with
  | _ n ih =>
    intro f hf
    match f, hf with
    | f' + 1, _ =>
      by_cases h10 : n < 10
      · simp [natDigits, natDigitsAux, h10]
      · have hd : n / 10 < n := Nat.div_lt_self (by omega) (by omega)
        have h1 : natDigitsAux f' (n / 10) = natDigits (n / 10) :=
          ih (n / 10) hd f' (by omega)
        have h2 : natDigitsAux n (n / 10) = natDigits (n / 10) :=
          ih (n / 10) hd n (by omega)
        simp [natDigits, natDigitsAux, h10, h1, h2]

lemma natDigits_lt (n : Nat) (h : n < 10) : natDigits n = [Char.ofNat (48 + n)] := by
  simp [natDigits, natDigitsAux, h]

lemma natDigits_ge (n : Nat) (h : 10 ≤ n) :
    natDigits n = natDigits (n / 10) ++ [Char.ofNat (48 + n % 10)] := by
  have h10 : ¬ n < 10 := by omega
  have hd : n / 10 < n := Nat.div_lt_self (by omega) (by omega)
  calc natDigits n = natDigitsAux n (n / 10) ++ [Char.ofNat (48 + n % 10)] := by
        simp [natDigits, natDigitsAux, h10]
    _ = natDigits (n / 10) ++ [Char.ofNat (48 + n % 10)] := by
        rw [natDigitsAux_stable (n / 10) n hd]

lemma natDigits_all_digit : ∀ n, ∀ c ∈ natDigits n, isDigitChar c = true := by
  intro n
  induction n using Nat.strong_induction_on with
  | _ n ih =>
    by_cases h10 : n < 10
    · rw [natDigits_lt n h10]
      intro c hc
      rw [List.mem_singleton] at hc
      subst hc
      exact (digit_char_spec n h10).1
    · rw [natDigits_ge n (by omega)]
      intro c hc
      rcases List.mem_append.mp hc with h | h
      · exact ih (n / 10) (Nat.div_lt_self (by omega) (by omega)) c h
      · rw [List.mem_singleton] at h
        subst h
        exact (digit_char_spec (n % 10) (Nat.mod_lt n (by omega))).1

lemma natDigits_ne_nil (n : Nat) : natDigits n ≠ [] := by
  by_cases h10 : n < 10
  · rw [natDigits_lt n h10]; simp
  · rw [natDigits_ge n (by omega)]; simp

lemma foldl_digits_from (n : Nat) : ∀ a : Nat,
    (natDigits n).foldl (fun a c => a * 10 + (c.toNat - 48)) a =
      a * 10 ^ (natDigits n).length + n := by
  induction n using Nat.strong_induction_on with
  | _ n ih =>
    intro a
    by_cases h10 : n < 10
    · rw [natDigits_lt n h10]
      simp [List.foldl, (digit_char_spec n h10).2]
    · rw [natDigits_ge n (by omega)]
      rw [List.foldl_append]
      rw [ih (n / 10) (Nat.div_lt_self (by omega) (by omega)) a]
      have hmod : (Char.ofNat (48 + n % 10)).toNat - 48 = n % 10 := by
        rw [(digit_char_spec (n % 10) (Nat.mod_lt n (by omega))).2]
        omega
      simp only [List.foldl, List.length_append, List.length_singleton, hmod]
      have hdm : n / 10 * 10 + n % 10 = n := by omega
      calc (a * 10 ^ (natDigits (n / 10)).length + n / 10) * 10 + n % 10
          = a * (10 ^ (natDigits (n / 10)).length * 10) + (n / 10 * 10 + n % 10) := by ring
        _ = a * 10 ^ ((natDigits (n / 10)).length + 1) + n := by rw [hdm, pow_succ]

lemma digitsVal_natDigits (n : Nat) : digitsVal (natDigits n) = n := by
  have := foldl_digits_from n 0
  simpa [digitsVal] using this

lemma digit_not_space {c : Char} (h : isDigitChar c = true) : isPySpace c = false := by
  simp only [isDigitChar, Bool.and_eq_true, decide_eq_true_eq] at h
  simp only [isPySpace, Bool.or_eq_false_iff, decide_eq_false_iff_not]
  omega

lemma dropWhile_all_false {p : Char → Bool} :
    ∀ l : List Char, (∀ c ∈ l, p c = false) → l.dropWhile p = l := by
  intro l h
  cases l with
  | nil => rfl
  | cons c t =>
    rw [List.dropWhile_cons, h c (by simp)]
    simp

lemma pyStripWs_digits (l : List Char) (h : ∀ c ∈ l, isDigitChar c = true) :
    pyStripWs l = l := by
  have h1 : ∀ c ∈ l, isPySpace c = false := fun c hc => digit_not_space (h c hc)
  unfold pyStripWs
  rw [dropWhile_all_false l h1,
    dropWhile_all_false l.reverse (fun c hc => h1 c (List.mem_reverse.mp hc)),
    List.reverse_reverse]

lemma parseUnsigned_digits (l : List Char) (hne : l ≠ [])
    (h : ∀ c ∈ l, isDigitChar c = true) : parseUnsigned l = some (digitsVal l) := by
  unfold parseUnsigned
  rw [if_neg (by simpa [List.isEmpty_iff] using hne), if_pos (List.all_eq_true.mpr h)]

lemma pyIntChars_digits (l : List Char) (hne : l ≠ [])
    (h : ∀ c ∈ l, isDigitChar c = true) :
    pyIntChars l = some ((digitsVal l : Nat) : Int) := by
  unfold pyIntChars
  rw [pyStripWs_digits l h]
  cases l with
  | nil => exact absurd rfl hne
  | cons c rest =>
    have hc := h c (by simp)
    have hm : ¬ (c = '-') := fun e => by subst e; revert hc; decide
    have hp : ¬ (c = '+') := fun e => by subst e; revert hc; decide
    simp only [if_neg hm, if_neg hp, parseUnsigned_digits (c :: rest) (by simp) h,
      Option.map_some']
    rfl

lemma digit_keep_dollarDot {c : Char} (h : isDigitChar c = true) :
    (!(c == '$' || c == '.')) = true := by
  simp only [Bool.not_eq_true', Bool.or_eq_false_iff, beq_eq_false_iff_ne, ne_eq]
  constructor
  · intro e; subst e; revert h; decide
  · intro e; subst e; revert h; decide

lemma stripDollarDot_digits (l : List Char) (h : ∀ c ∈ l, isDigitChar c = true) :
    stripDollarDot l = l :=
  List.filter_eq_self.mpr fun c hc => digit_keep_dollarDot (h c hc)

lemma stripDollar_digits (l : List Char) (h : ∀ c ∈ l, isDigitChar c = true) :
    stripDollar l = l := by
  refine List.filter_eq_self.mpr fun c hc => ?_
  have hd := h c hc
  simp only [Bool.not_eq_true', beq_eq_false_iff_ne, ne_eq]
  intro e; subst e; revert hd; decide

lemma contains_dot_of_mem {l : List Char} (h : '.' ∈ l) : l.contains '.' = true :=
  List.elem_eq_true_of_mem h

/-- Decoding a string of shape `$<l1>.<l2>` with all-digit `l1 ++ l2` yields
the digits' value as cents. -/
lemma decode_dollar_digits_dot (l1 l2 : List Char)
    (h : ∀ c ∈ l1 ++ l2, isDigitChar c = true) (hne : l1 ++ l2 ≠ []) :
    format_price_str_to_int (String.mk ('$' :: l1 ++ '.' :: l2)) =
      some ((digitsVal (l1 ++ l2) : Nat) : Int) := by
  unfold format_price_str_to_int
  have hdata : (String.mk ('$' :: l1 ++ '.' :: l2)).data = '$' :: l1 ++ '.' :: l2 := rfl
  rw [hdata, if_pos (contains_dot_of_mem (by simp))]
  have hstrip : stripDollarDot ('$' :: l1 ++ '.' :: l2) = l1 ++ l2 := by
    unfold stripDollarDot
    rw [show ('$' :: l1 ++ '.' :: l2) = '$' :: (l1 ++ '.' :: l2) from rfl]
    rw [List.filter_cons_of_neg (by decide), List.filter_append,
      List.filter_cons_of_neg (by decide)]
    rw [List.filter_eq_self.mpr
        (fun c hc => digit_keep_dollarDot (h c (List.mem_append_left _ hc))),
      List.filter_eq_self.mpr
        (fun c hc => digit_keep_dollarDot (h c (List.mem_append_right _ hc)))]
  rw [hstrip, pyIntChars_digits (l1 ++ l2) hne h]

lemma natDigits_length_pos (n : Nat) : 0 < (natDigits n).length :=
  List.length_pos.mpr (natDigits_ne_nil n)

lemma natDigits_length_ge_three (c : Nat) (h : 100 ≤ c) :
    3 ≤ (natDigits c).length := by
  have h1 := natDigits_ge c (by omega)
  have h2 := natDigits_ge (c / 10) (by omega : 10 ≤ c / 10)
  have h3 := natDigits_length_pos (c / 10 / 10)
  rw [h1, List.length_append, h2, List.length_append]
  simp only [List.length_singleton]
  omega

lemma digitsVal_cons_zero (l : List Char) : digitsVal ('0' :: l) = digitsVal l := by
  unfold digitsVal
  rw [List.foldl_cons]
  congr 1

lemma price_roundtrip_all (c : Nat) :
    format_price_str_to_int (format_price_int_to_str (c : Int)) = some (c : Int) := by
  have hstr : pyStrInt (c : Int) = natDigits c := by
    unfold pyStrInt
    rw [if_neg (by omega : ¬ ((c : Int) < 0))]
    all_goals rfl
  unfold format_price_int_to_str
  rw [hstr]
  rcases Nat.lt_or_ge c 100 with h100 | h100
  · rcases Nat.lt_or_ge c 10 with h10 | h10
    · -- one digit: "$0.0D"
      rw [natDigits_lt c h10]
      have hshape : format_price_chars [Char.ofNat (48 + c)] =
          String.mk ('$' :: ['0'] ++ '.' :: ('0' :: [Char.ofNat (48 + c)])) := rfl
      rw [hshape, decode_dollar_digits_dot ['0'] ('0' :: [Char.ofNat (48 + c)])
        (by
          intro x hx
          simp at hx
          rcases hx with rfl | rfl
          · decide
          · exact (digit_char_spec c h10).1)
        (by simp)]
      have hval : digitsVal (['0'] ++ '0' :: [Char.ofNat (48 + c)]) = c := by
        show digitsVal ('0' :: '0' :: [Char.ofNat (48 + c)]) = c
        rw [digitsVal_cons_zero, digitsVal_cons_zero, ← natDigits_lt c h10,
          digitsVal_natDigits]
      rw [hval]
    · -- two digits: "$0.DD"
      have hd1 : c / 10 < 10 := by omega
      have htwo : natDigits c = [Char.ofNat (48 + c / 10), Char.ofNat (48 + c % 10)] := by
        rw [natDigits_ge c h10, natDigits_lt (c / 10) hd1]
        rfl
      rw [htwo]
      have hshape : format_price_chars
          [Char.ofNat (48 + c / 10), Char.ofNat (48 + c % 10)] =
          String.mk ('$' :: ['0'] ++ '.' ::
            [Char.ofNat (48 + c / 10), Char.ofNat (48 + c % 10)]) := rfl
      rw [hshape, decode_dollar_digits_dot ['0']
        [Char.ofNat (48 + c / 10), Char.ofNat (48 + c % 10)]
        (by
          intro x hx
          simp at hx
          rcases hx with rfl | rfl | rfl
          · decide
          · exact (digit_char_spec (c / 10) hd1).1
          · exact (digit_char_spec (c % 10) (by omega)).1)
        (by simp)]
      have hval : digitsVal (['0'] ++
          [Char.ofNat (48 + c / 10), Char.ofNat (48 + c % 10)]) = c := by
        show digitsVal ('0' :: [Char.ofNat (48 + c / 10), Char.ofNat (48 + c % 10)]) = c
        rw [digitsVal_cons_zero, ← htwo, digitsVal_natDigits]
      rw [hval]
  · -- three or more digits: "$<head>.<last two>"
    have hlen := natDigits_length_ge_three c h100
    have hshape : format_price_chars (natDigits c) =
        String.mk ('$' :: (natDigits c).take ((natDigits c).length - 2) ++
          '.' :: (natDigits c).drop ((natDigits c).length - 2)) := by
      unfold format_price_chars
      rw [if_neg (by omega), if_neg (by omega)]
      all_goals rfl
    have hsplit : (natDigits c).take ((natDigits c).length - 2) ++
        (natDigits c).drop ((natDigits c).length - 2) = natDigits c :=
      List.take_append_drop _ _
    rw [hshape, decode_dollar_digits_dot _ _
      (by rw [hsplit]; exact natDigits_all_digit c)
      (by rw [hsplit]; exact natDigits_ne_nil c)]
    rw [show digitsVal ((natDigits c).take ((natDigits c).length - 2) ++
        (natDigits c).drop ((natDigits c).length - 2)) = c from by
      rw [hsplit, digitsVal_natDigits]]

lemma digit_keep_dollar {c : Char} (h : isDigitChar c = true) :
    (!(c == '$')) = true := by
  simp only [Bool.not_eq_true', beq_eq_false_iff_ne, ne_eq]
  intro e; subst e; revert h; decide

lemma not_contains_dot {l : List Char} (h : '.' ∉ l) : l.contains '.' = false := by
  cases hb : l.contains '.' with
  | false => rfl
  | true => exact absurd (List.mem_of_elem_eq_true hb) h

/-- Decoding a string of shape `$<l>` with all-digit `l` yields the digits'
value times 100 (whole-currency-units reading). -/
lemma decode_dollar_digits (l : List Char) (hne : l ≠ [])
    (h : ∀ c ∈ l, isDigitChar c = true) :
    format_price_str_to_int (String.mk ('$' :: l)) =
      some ((digitsVal l : Int) * 100) := by
  unfold format_price_str_to_int
  have hdata : (String.mk ('$' :: l)).data = '$' :: l := rfl
  rw [hdata]
  have hnd : '.' ∉ '$' :: l := by
    intro hm
    rcases List.mem_cons.mp hm with he | hm2
    · exact absurd he (by decide)
    · have hd := h '.' hm2; revert hd; decide
  rw [if_neg (by rw [not_contains_dot hnd]; exact Bool.false_ne_true)]
  have hstrip : stripDollar ('$' :: l) = l := by
    unfold stripDollar
    rw [List.filter_cons_of_neg (by decide),
      List.filter_eq_self.mpr (fun c hc => digit_keep_dollar (h c hc))]
  rw [hstrip, pyIntChars_digits l hne h]
  rfl

lemma mem_dropWhile_of_pred_false {p : Char → Bool} {a : Char} (hpa : p a = false) :
    ∀ l : List Char, a ∈ l → a ∈ l.dropWhile p := by
  intro l
  induction l with
  | nil => intro h; exact absurd h (List.not_mem_nil a)
  | cons c t ih =>
    intro h
    rw [List.dropWhile_cons]
    by_cases hc : p c = true
    · rw [if_pos hc]
      rcases List.mem_cons.mp h with he | ht
      · subst he; rw [hpa] at hc; exact absurd hc (by simp)
      · exact ih ht
    · rw [if_neg hc]; exact h

lemma mem_pyStripWs {a : Char} (hns : isPySpace a = false) {l : List Char}
    (ha : a ∈ l) : a ∈ pyStripWs l := by
  unfold pyStripWs
  rw [List.mem_reverse]
  exact mem_dropWhile_of_pred_false hns _
    (List.mem_reverse.mpr (mem_dropWhile_of_pred_false hns l ha))

lemma pyStripWs_subset {a : Char} {l : List Char} (ha : a ∈ pyStripWs l) : a ∈ l := by
  unfold pyStripWs at ha
  rw [List.mem_reverse] at ha
  have h1 := (List.dropWhile_sublist isPySpace).mem ha
  rw [List.mem_reverse] at h1
  exact (List.dropWhile_sublist isPySpace).mem h1

lemma parseUnsigned_none_of_nondigit {a : Char} (hnd : isDigitChar a = false)
    {l : List Char} (ha : a ∈ l) : parseUnsigned l = none := by
  have hall : ¬ (l.all isDigitChar = true) := fun hall => by
    have h2 := List.all_eq_true.mp hall a ha
    rw [hnd] at h2
    exact absurd h2 (by simp)
  cases l with
  | nil => exact absurd ha (List.not_mem_nil a)
  | cons c t =>
    unfold parseUnsigned
    rw [if_neg (by simp), if_neg hall]

/-- The scrutinee-reduced form of `pyIntChars` once the stripped list is
known. -/
lemma pyIntChars_eq_of_strip {l : List Char} {c : Char} {rest : List Char}
    (hs : pyStripWs l = c :: rest) :
    pyIntChars l =
      (if c = '-' then (parseUnsigned rest).map (fun n => -(Int.ofNat n))
       else if c = '+' then (parseUnsigned rest).map (fun n => Int.ofNat n)
       else (parseUnsigned (c :: rest)).map (fun n => Int.ofNat n)) := by
  unfold pyIntChars
  rw [hs]

/-- A character that is not a digit, a sign, or whitespace anywhere in the
input makes `int()` raise. -/
lemma pyIntChars_none_of_bad {a : Char} (hnd : isDigitChar a = false)
    (hns : isPySpace a = false) (hm : a ≠ '-') (hp : a ≠ '+')
    {l : List Char} (ha : a ∈ l) : pyIntChars l = none := by
  have ha' : a ∈ pyStripWs l := mem_pyStripWs hns ha
  cases hs : pyStripWs l with
  | nil => rw [hs] at ha'; exact absurd ha' (List.not_mem_nil a)
  | cons c rest =>
    rw [hs] at ha'
    rw [pyIntChars_eq_of_strip hs]
    by_cases hc : c = '-'
    · rw [if_pos hc]
      have harest : a ∈ rest := by
        rcases List.mem_cons.mp ha' with he | h2
        · subst he; exact absurd hc hm
        · exact h2
      rw [parseUnsigned_none_of_nondigit hnd harest]
      rfl
    · rw [if_neg hc]
      by_cases hp2 : c = '+'
      · rw [if_pos hp2]
        have harest : a ∈ rest := by
          rcases List.mem_cons.mp ha' with he | h2
          · subst he; exact absurd hp2 hp
          · exact h2
        rw [parseUnsigned_none_of_nondigit hnd harest]
        rfl
      · rw [if_neg hp2]
        rw [parseUnsigned_none_of_nondigit hnd ha']
        rfl

lemma pyIntChars_nonneg {l : List Char} (hm : '-' ∉ l) {v : Int}
    (h : pyIntChars l = some v) : 0 ≤ v := by
  cases hs : pyStripWs l with
  | nil =>
    have hnone : pyIntChars l = none := by unfold pyIntChars; rw [hs]
    rw [hnone] at h
    exact absurd h (by simp)
  | cons c rest =>
    rw [pyIntChars_eq_of_strip hs] at h
    have hc : ¬ (c = '-') := fun e => by
      subst e
      exact hm (pyStripWs_subset (hs ▸ List.mem_cons_self '-' rest))
    rw [if_neg hc] at h
    by_cases hp : c = '+'
    · rw [if_pos hp] at h
      rcases Option.map_eq_some'.mp h with ⟨n, _, hv⟩
      subst hv
      rw [Int.ofNat_eq_natCast]
      exact Int.natCast_nonneg n
    · rw [if_neg hp] at h
      rcases Option.map_eq_some'.mp h with ⟨n, _, hv⟩
      subst hv
      rw [Int.ofNat_eq_natCast]
      exact Int.natCast_nonneg n

lemma format_price_nonneg (s : String) (v : Int)
    (h : format_price_str_to_int s = some v) (hm : '-' ∉ s.data) : 0 ≤ v := by
  unfold format_price_str_to_int at h
  by_cases hdot : s.data.contains '.' = true
  · rw [if_pos hdot] at h
    exact pyIntChars_nonneg (fun hmem => hm (List.mem_of_mem_filter hmem)) h
  · rw [if_neg hdot] at h
    rcases Option.map_eq_some'.mp h with ⟨i, hi, hv⟩
    have hnn : 0 ≤ i := pyIntChars_nonneg (fun hmem => hm (List.mem_of_mem_filter hmem)) hi
    rw [← hv]
    positivity

/-- With this schema `Product.create` never raises, so `add_record_to_db`
always appends a fresh row (the upsert conflict branch is dead code). -/
lemma add_record_ok (record : InputRecord) (db : DB) :
    add_record_to_db record db =
      .ok ⟨db.rows ++ [⟨db.nextId, record.product_name, .int record.product_quantity,
        .int record.product_price, record.date_updated⟩], db.nextId + 1⟩ := rfl

lemma add_preserves_priceInvariant (record : InputRecord) (db db' : DB)
    (hp : 0 ≤ record.product_price) (hdb : priceInvariant db = true)
    (h : add_record_to_db record db = .ok db') : priceInvariant db' = true := by
  rw [add_record_ok] at h
  simp only [PyResult.ok.injEq] at h
  subst h
  unfold priceInvariant at hdb ⊢
  rw [List.all_append, hdb]
  simp only [Bool.true_and, List.all_cons, List.all_nil, Bool.and_true]
  unfold priceOkRow
  simpa using hp

/-! ## Claim theorems -/

/-- C1: the claim says an upsert of an existing name updates that row in
place and creates no new row. In the code `product_name` carries no unique
constraint, so `Product.create` succeeds and `IntegrityError` is never
raised: upserting "Widget" (qty 20, price 600, earlier date) over an existing
"Widget" row appends a second "Widget" row with a fresh id and leaves the
first row untouched. -/
theorem c1_duplicate_name_creates_second_row :
    add_record_to_db ⟨"Widget", 10, 500, dtMar4⟩ DB.empty = .ok widgetDb ∧
    add_record_to_db ⟨"Widget", 20, 600, dtMar1⟩ widgetDb =
      .ok ⟨[widgetRow, ⟨2, "Widget", .int 20, .int 600, dtMar1⟩], 3⟩ := by
  exact ⟨rfl, rfl⟩

/-- C2: the claim says importing a seed file with two rows of the same
`product_name` leaves exactly one stored row. Running the import on such a
file over an empty table stores two rows (the second upsert call creates a
second row instead of updating the first). -/
theorem c2_duplicate_csv_rows_store_two_rows :
    load_data_from_csv dtMar1 (some sampleCsv) DB.empty =
      .ok (⟨[⟨1, "Widget", .int 10, .int 500, dtMar4⟩,
             ⟨2, "Widget", .int 20, .int 600, dtMar5⟩], 3⟩, []) := by
  decide

/-- C3 (counterexample): the price prompt's `re.search`-based validation
accepts "-5.00", which decodes to -500 cents and is stored, so the
non-negativity part of the claimed invariant fails. -/
theorem c3_negative_price_reaches_storage :
    priceInputSearch "-5.00" = true ∧
    get_price_from_user ["-5.00"] = .accepted (-500) ∧
    add_record_to_db ⟨"Gizmo", 1, -500, dtMar4⟩ DB.empty =
      .ok ⟨[⟨1, "Gizmo", .int 1, .int (-500), dtMar4⟩], 2⟩ ∧
    priceInvariant ⟨[⟨1, "Gizmo", .int 1, .int (-500), dtMar4⟩], 2⟩ = false := by
  decide

/-- C3 (amended): every stored price is an integer number of cents, and it is
non-negative provided the decoded input string contains no minus sign; writes
of a non-negative price preserve the table-wide invariant. -/
theorem c3_price_integer_and_nonneg_without_minus :
    (∀ (s : String) (v : Int), format_price_str_to_int s = some v →
       '-' ∉ s.data → 0 ≤ v) ∧
    (∀ (record : InputRecord) (db db' : DB), 0 ≤ record.product_price →
       priceInvariant db = true → add_record_to_db record db = .ok db' →
       priceInvariant db' = true) :=
  ⟨format_price_nonneg, add_preserves_priceInvariant⟩

theorem c3_price_integer_witness :
    (0 : Int) ≤ 200 ∧
    priceInvariant ⟨[⟨1, "Apple", .int 5, .int 200, dtMar4⟩], 2⟩ = true :=
  ⟨c3_price_integer_and_nonneg_without_minus.1 "$2.00" 200 (by decide) (by decide),
   c3_price_integer_and_nonneg_without_minus.2 ⟨"Apple", 5, 200, dtMar4⟩ DB.empty
     ⟨[⟨1, "Apple", .int 5, .int 200, dtMar4⟩], 2⟩ (by decide) (by decide) (by decide)⟩

/-- C4: for every cents value `c` in [0, 99999], decoding the encoding
round-trips exactly: `format_price_str_to_int (format_price_int_to_str c) =
some c`. -/
theorem c4_price_roundtrip (c : Nat) (h : c ≤ 99999) :
    format_price_str_to_int (format_price_int_to_str (c : Int)) = some (c : Int) :=
  price_roundtrip_all c

theorem c4_price_roundtrip_witness :
    (150 : Nat) ≤ 99999 ∧
    format_price_str_to_int (format_price_int_to_str ((150 : Nat) : Int)) =
      some ((150 : Nat) : Int) :=
  ⟨by decide, c4_price_roundtrip 150 (by decide)⟩

/-- C5: `format_price_str_to_int` reads a dotted string's digits directly as
cents ("$12.5" gives 125, "$12.50" gives 1250), multiplies an undotted
string's digits by 100 ("$7" gives 700, and in general `$<digits>` gives the
digits' value times 100), and fails — an uncaught `ValueError` — when the
remaining text is not numeric (any input containing a letter such as 'a'). -/
theorem c5_decode_price_behaviour :
    format_price_str_to_int "$12.5" = some 125 ∧
    format_price_str_to_int "$12.50" = some 1250 ∧
    format_price_str_to_int "$7" = some 700 ∧
    (∀ l : List Char, l ≠ [] → (∀ c ∈ l, isDigitChar c = true) →
       format_price_str_to_int (String.mk ('$' :: l)) =
         some ((digitsVal l : Int) * 100)) ∧
    (∀ s : String, 'a' ∈ s.data → format_price_str_to_int s = none) := by
  refine ⟨by decide, by decide, by decide, decode_dollar_digits, ?_⟩
  intro s ha
  unfold format_price_str_to_int
  by_cases hdot : s.data.contains '.' = true
  · rw [if_pos hdot]
    have hmem : 'a' ∈ stripDollarDot s.data := List.mem_filter.mpr ⟨ha, by decide⟩
    exact @pyIntChars_none_of_bad 'a' (by decide) (by decide) (by decide) (by decide)
      (stripDollarDot s.data) hmem
  · rw [if_neg hdot]
    have hmem : 'a' ∈ stripDollar s.data := List.mem_filter.mpr ⟨ha, by decide⟩
    rw [@pyIntChars_none_of_bad 'a' (by decide) (by decide) (by decide) (by decide)
      (stripDollar s.data) hmem]
    rfl

theorem c5_decode_price_witness :
    format_price_str_to_int (String.mk ['$', '4']) =
      some ((digitsVal ['4'] : Int) * 100) ∧
    format_price_str_to_int "cash" = none :=
  ⟨c5_decode_price_behaviour.2.2.2.1 ['4'] (by decide) (by decide),
   c5_decode_price_behaviour.2.2.2.2 "cash" (by decide)⟩

/-- C6 (counterexample): decoding "3/4/2021" gives March 4, 2021 00:00, but
re-encoding that timestamp gives the zero-padded "03/04/2021"
(`strftime('%m/%d/%Y')` pads), not the claimed "3/4/2021". -/
theorem c6_encode_is_zero_padded :
    format_date_str_to_datetime (some "3/4/2021") ⟨2025, 6, 7, 8, 9, 10⟩ =
      .ok dtMar4 ∧
    format_date_datetime_to_str dtMar4 = "03/04/2021" ∧
    format_date_datetime_to_str dtMar4 ≠ "3/4/2021" := by
  decide

/-- C6 (amended): for any clock value, decoding "3/4/2021" yields the
timestamp for March 4, 2021 at 00:00, and encoding that timestamp yields the
zero-padded "03/04/2021" (MM/DD/YYYY), not "3/4/2021". -/
theorem c6_date_codec_amended (now : Datetime) :
    format_date_str_to_datetime (some "3/4/2021") now = .ok dtMar4 ∧
    format_date_datetime_to_str dtMar4 = "03/04/2021" :=
  ⟨rfl, by decide⟩

/-- C7: the claim says no typed price line can make the prompt raise. The
unanchored `re.search('\$?\.?\d+', ...)` validation passes "a5" (it finds the
digit), and then `int('a5')` raises an uncaught `ValueError`; a digit-free
line such as "x" does re-prompt as claimed. -/
theorem c7_price_prompt_crashes_on_a5 :
    priceInputSearch "a5" = true ∧
    get_price_from_user ["a5"] = .raisedValueError ∧
    get_price_from_user ["x", "$3.00"] = .accepted 300 := by
  decide

/-- C8: for any table and entered id, a missing product makes
`view_product_by_id` print only the not-found message — no keypress wait, no
uncaught raise (the bare `except` absorbs `DoesNotExist`) — and an existing
product is shown as its four formatted lines followed by the keypress wait. -/
theorem c8_view_product_by_id_behaviour (db : DB) (i : Int) :
    (Product.get_by_id db i = none →
       view_product_by_id db i = [.print idNotFoundMsg] ∧
       OutEvent.waitKey ∉ view_product_by_id db i) ∧
    (∀ p, Product.get_by_id db i = some p →
       view_product_by_id db i =
         [.print ("Product " ++ natStr p.product_id ++ ":  " ++ p.product_name),
          .print ("Price: " ++ format_price_val_to_str p.product_price),
          .print ("Quantity in stock: " ++ pyValStr p.product_quantity),
          .print ("Date Last Updated: " ++
            format_date_datetime_to_str p.date_updated),
          .waitKey]) := by
  constructor
  · intro h
    have hv : view_product_by_id db i = [.print idNotFoundMsg] := by
      unfold view_product_by_id view_try_block
      rw [h]
    exact ⟨hv, by rw [hv]; decide⟩
  · intro p h
    unfold view_product_by_id view_try_block
    rw [h]
    rfl

theorem c8_view_product_by_id_witness :
    view_product_by_id widgetDb 7 = [.print idNotFoundMsg] ∧
    view_product_by_id widgetDb 1 =
      [.print "Product 1:  Widget", .print "Price: $5.00",
       .print "Quantity in stock: 10", .print "Date Last Updated: 03/04/2021",
       .waitKey] :=
  ⟨((c8_view_product_by_id_behaviour widgetDb 7).1 (by decide)).1,
   ((c8_view_product_by_id_behaviour widgetDb 1).2 widgetRow (by decide)).trans
     (by decide)⟩

/-- C9: with the seed file absent, `load_data_from_csv` catches
`FileNotFoundError`, prints the notice, leaves the table exactly as it was,
and returns without an error for every starting table and clock value. -/
theorem c9_missing_csv_is_nonfatal (now : Datetime) (db : DB) :
    load_data_from_csv now none db = .ok (db, [csvMissingNotice]) := rfl

/-- C10: the default argument of `format_date_datetime_to_str` is
`datetime.now()` evaluated once at module load, so a no-argument call formats
the load-time timestamp — identical across calls made at different times —
and not the clock value at call time. -/
theorem c10_default_arg_captured_at_load (startupNow ct1 ct2 : Datetime) :
    format_date_datetime_to_str_noarg startupNow ct1 =
      format_date_datetime_to_str startupNow ∧
    format_date_datetime_to_str_noarg startupNow ct1 =
      format_date_datetime_to_str_noarg startupNow ct2 ∧
    format_date_datetime_to_str_noarg dtMar4 ⟨2022, 3, 4, 0, 0, 0⟩ =
      "03/04/2021" ∧
    format_date_datetime_to_str ⟨2022, 3, 4, 0, 0, 0⟩ = "03/04/2022" :=
  ⟨rfl, rfl, by decide, by decide⟩

theorem c6_date_codec_amended_witness :
    format_date_str_to_datetime (some "3/4/2021") dtMar1 = .ok dtMar4 ∧
    format_date_datetime_to_str dtMar4 = "03/04/2021" :=
  c6_date_codec_amended dtMar1

theorem c9_missing_csv_witness :
    load_data_from_csv dtMar1 none widgetDb = .ok (widgetDb, [csvMissingNotice]) :=
  c9_missing_csv_is_nonfatal dtMar1 widgetDb

theorem c10_default_arg_witness :
    format_date_datetime_to_str_noarg dtMar4 dtMar1 =
      format_date_datetime_to_str dtMar4 ∧
    format_date_datetime_to_str_noarg dtMar4 dtMar1 =
      format_date_datetime_to_str_noarg dtMar4 dtMar5 ∧
    format_date_datetime_to_str_noarg dtMar4 ⟨2022, 3, 4, 0, 0, 0⟩ =
      "03/04/2021" ∧
    format_date_datetime_to_str ⟨2022, 3, 4, 0, 0, 0⟩ = "03/04/2022" :=
  c10_default_arg_captured_at_load dtMar4 dtMar1 dtMar5
